import Mathlib

/-!
# Expense management: reducer, approval inbox and dashboard queries

A shallow embedding of `src/src/App.jsx`.

* JavaScript objects with a fixed set of keys are Lean structures; an object
  spread `{...x, k: v}` is a structure update `{ x with k := v }`.
* A key that may be missing is an `Option` field (`none` is `undefined` / `null`).
* Strings stay strings (statuses, roles and step labels are compared with `===`
  in the source, so they are compared as strings here).
* `appReducer` reads the clock (`Date.now()`); the clock value is an explicit argument.
* `appReducer` can throw (`state.user.name` when `state.user` is `null`); it returns
  `Option State`, where `none` is the thrown `TypeError`.
* A handler of a page (`handleAction`, `handleSubmit`, `handleStepChange`) is a function
  of the props and the component state it reads; it returns the actions it dispatches
  and the component state it sets.
* Numbers are rationals rounded to binary64 after every operation (`toDouble`), so that
  `parseFloat(x) * 1.10` and `toFixed(2)` are computed as JavaScript computes them.
-/

namespace ExpenseApp

set_option linter.unusedVariables false

/-! ## Data model -/

/-- A JavaScript value stored in an amount field: a number or a string
(`companyAmount` is a number in the seed data and the string made by `toFixed(2)`
in the submit form). -/
inductive JsValue where
  | num (q : ℚ)
  | str (s : String)
  deriving DecidableEq, Repr

/-- The constant `ROLES.ADMIN`. -/
abbrev ROLES.ADMIN : String := "Admin"
/-- The constant `ROLES.MANAGER`. -/
abbrev ROLES.MANAGER : String := "Manager"
/-- The constant `ROLES.EMPLOYEE`. -/
abbrev ROLES.EMPLOYEE : String := "Employee"
/-- The constant `ROLES.PUBLIC`. -/
abbrev ROLES.PUBLIC : String := "Public"

/-- The constant `PAGES.LOGIN`. -/
abbrev PAGES.LOGIN : String := "login"
/-- The constant `PAGES.DASHBOARD`. -/
abbrev PAGES.DASHBOARD : String := "dashboard"
/-- The constant `PAGES.SUBMIT_EXPENSE`. -/
abbrev PAGES.SUBMIT_EXPENSE : String := "submit_expense"
/-- The constant `PAGES.APPROVAL_INBOX`. -/
abbrev PAGES.APPROVAL_INBOX : String := "approval_inbox"
/-- The constant `PAGES.ADMIN_USERS`. -/
abbrev PAGES.ADMIN_USERS : String := "admin_users"
/-- The constant `PAGES.ADMIN_RULES`. -/
abbrev PAGES.ADMIN_RULES : String := "admin_rules"

/-- A user object, as in `mockUsers`. -/
structure User where
  id : Nat
  role : String
  name : String
  managerId : Option Nat
  deriving DecidableEq, Repr

/-- An expense object, as in `initialExpenses`; `approvalComment` is only present
once a decision has been processed. -/
structure Expense where
  id : Nat
  userId : Nat
  employeeName : String
  category : String
  originalAmount : JsValue
  originalCurrency : String
  companyAmount : JsValue
  status : String
  currentStep : String
  date : String
  approvalComment : Option String
  deriving DecidableEq, Repr

/-- One step of a rule: `{ id, role }`. -/
structure Step where
  id : Nat
  role : String
  deriving DecidableEq, Repr

/-- The `conditional` object of a rule. The seed rule has only `type`; the rule editor
adds `percentage`, `specificApprover` and `logic`. -/
structure Conditional where
  type : Option String
  percentage : Option Int
  specificApprover : Option String
  logic : Option String
  deriving DecidableEq, Repr

/-- A rule: `{ name, steps, conditional }`. -/
structure Rule where
  name : String
  steps : List Step
  conditional : Conditional
  deriving DecidableEq, Repr

/-- The `rules` object: rule key to rule, in key order. -/
abbrev Rules := List (String × Rule)

/-- The `message` object: `{ type, text }`. -/
structure Message where
  type : String
  text : String
  deriving DecidableEq, Repr

/-- The application state held by `useReducer`. -/
structure State where
  isAuthenticated : Bool
  user : Option User
  currentPage : String
  expenses : List Expense
  rules : Rules
  baseCurrency : String
  message : Option Message
  deriving DecidableEq, Repr

/-- The actions dispatched in the application, by `type`. `SUBMIT_EXPENSE` carries the
payload object, which the reducer spreads into the new expense (so it is an object with
the keys of an expense, `id`, `status` and `currentStep` included), `PROCESS_APPROVAL`
carries `{ id, status, comment }`. `SET_RULES` and `SET_MESSAGE` are dispatched by the pages
but have no `case` in the reducer; `OTHER` is any further `type`. -/
inductive Action where
  | LOGIN (user : User)
  | LOGOUT
  | NAVIGATE (page : String)
  | SUBMIT_EXPENSE (payload : Expense)
  | PROCESS_APPROVAL (id : Nat) (status : String) (comment : String)
  | SET_RULES (rules : Rules)
  | SET_MESSAGE (payload : Option Message)
  | OTHER (type : String)
  deriving DecidableEq, Repr

/-! ## Seed data -/

/-- The user `mockUsers['admin@company.com']`. -/
def adminUser : User := { id := 1, role := ROLES.ADMIN, name := "Ava Admin", managerId := none }
/-- The user `mockUsers['manager@company.com']`. -/
def managerUser : User :=
  { id := 2, role := ROLES.MANAGER, name := "Mike Manager", managerId := some 1 }
/-- The user `mockUsers['employee@company.com']`. -/
def employeeUser : User :=
  { id := 3, role := ROLES.EMPLOYEE, name := "Emily Employee", managerId := some 2 }

/-- The table `mockUsers`, keyed by e-mail address. -/
def mockUsers : List (String × User) :=
  [("admin@company.com", adminUser), ("manager@company.com", managerUser),
   ("employee@company.com", employeeUser)]

/-- The first element of `initialExpenses` (id 101). -/
def expense101 : Expense :=
  { id := 101, userId := 3, employeeName := "Emily Employee", category := "Travel",
    originalAmount := .num 450, originalCurrency := "EUR", companyAmount := .num 495,
    status := "Pending", currentStep := "Manager", date := "2025-10-01",
    approvalComment := none }

/-- The second element of `initialExpenses` (id 102). -/
def expense102 : Expense :=
  { id := 102, userId := 3, employeeName := "Emily Employee", category := "Software",
    originalAmount := .num 50, originalCurrency := "USD", companyAmount := .num 50,
    status := "Approved", currentStep := "Completed", date := "2025-09-28",
    approvalComment := none }

/-- The third element of `initialExpenses` (id 103). -/
def expense103 : Expense :=
  { id := 103, userId := 4, employeeName := "John Doe", category := "Meals",
    originalAmount := .num 3500, originalCurrency := "INR", companyAmount := .num 42,
    status := "Rejected", currentStep := "Rejected by Finance", date := "2025-09-29",
    approvalComment := none }

/-- The seed list `initialExpenses`. -/
def initialExpenses : List Expense := [expense101, expense102, expense103]

/-- The seed rule `mockApprovalRules.rule1`. -/
def defaultRule : Rule :=
  { name := "Standard Travel Flow",
    steps := [⟨1, ROLES.MANAGER⟩, ⟨2, "Finance"⟩, ⟨3, "Director"⟩],
    conditional :=
      { type := some "None", percentage := none, specificApprover := none, logic := none } }

/-- The seed rules `mockApprovalRules`. -/
def mockApprovalRules : Rules := [("rule1", defaultRule)]

/-- The state `initialState`. -/
def initialState : State :=
  { isAuthenticated := false,
    user := none,
    currentPage := PAGES.LOGIN,
    expenses := initialExpenses,
    rules := mockApprovalRules,
    baseCurrency := "USD",
    message := none }

/-! ## The reducer -/

/-- The function `appReducer(state, action)`, with the value of `Date.now()` as `now`.
The result is `none` exactly when the source throws: in `PROCESS_APPROVAL` the template
literal reads `state.user.name`, which is a `TypeError` when `state.user` is `null`
(it is only evaluated for an expense whose id matches, and only when the status is not
`'Approved'`). -/
def appReducer (now : Nat) (state : State) (action : Action) : Option State :=
  match action with
  | .LOGIN user =>
    some { state with
      isAuthenticated := true,
      user := some user,
      currentPage := PAGES.DASHBOARD,
      message := none }
  | .LOGOUT => some { initialState with currentPage := PAGES.LOGIN }
  | .NAVIGATE page => some { state with currentPage := page, message := none }
  | .SUBMIT_EXPENSE payload =>
    some { state with
      expenses :=
        { payload with id := now, status := "Pending", currentStep := "Manager" }
          :: state.expenses,
      message := some ⟨"success", "Expense submitted successfully!"⟩ }
  | .PROCESS_APPROVAL id status comment =>
    (state.expenses.mapM (fun exp =>
      if exp.id = id then
        (if status = "Approved" then some "Completed"
          else state.user.map (fun u => "Rejected by " ++ u.name)).map (fun currentStep =>
            { exp with
              status := status,
              currentStep := currentStep,
              approvalComment := some comment })
      else some exp)).map (fun expenses =>
        { state with
          expenses := expenses,
          message := some ⟨"success", "Expense " ++ status ++ "!"⟩ })
  | _ => some state

/-- React's `dispatch`, applied to a sequence of actions: each action goes through
`appReducer` on the state left by the previous one; no action, no change. -/
def dispatchAll (now : Nat) (state : State) : List Action → Option State
  | [] => some state
  | a :: rest => (appReducer now state a).bind (fun s => dispatchAll now s rest)

/-! ## Dashboard and approval inbox -/

/-- The list `userExpenses` of `DashboardPage`. -/
def userExpenses (user : User) (expenses : List Expense) : List Expense :=
  if user.role = ROLES.EMPLOYEE then
    expenses.filter (fun exp => exp.userId == user.id)
  else expenses

/-- The list `pendingExpenses` of `ApprovalInboxPage`. -/
def pendingExpenses (user : User) (expenses : List Expense) : List Expense :=
  expenses.filter (fun exp => exp.status == "Pending" && (
    user.role == ROLES.ADMIN || (user.role == ROLES.MANAGER && exp.currentStep == "Manager")))

/-- The code points removed by `String.prototype.trim`: ECMAScript `WhiteSpace`
(TAB, VT, FF, SP, NBSP, ZWNBSP and the category Zs) and `LineTerminator`
(LF, CR, LS, PS). -/
def isJsWhiteSpace (c : Char) : Bool :=
  c.val.toNat ∈ [0x09, 0x0A, 0x0B, 0x0C, 0x0D, 0x20, 0xA0, 0x1680, 0x2028, 0x2029,
    0x202F, 0x205F, 0x3000, 0xFEFF] || (0x2000 ≤ c.val.toNat && c.val.toNat ≤ 0x200A)

/-- The method `String.prototype.trim`: white space is removed at both ends. -/
def jsTrim (s : String) : String :=
  ⟨((s.data.dropWhile isJsWhiteSpace).reverse.dropWhile isJsWhiteSpace).reverse⟩

/-- What one call of `handleAction` does: the actions it dispatches, and the component
state (`selectedExpense`, `comment`) it leaves. -/
structure InboxEffect where
  dispatched : List Action
  selectedExpense : Option Expense
  comment : String
  deriving DecidableEq, Repr

/-- The handler `handleAction(status)` of `ApprovalInboxPage`, over the component state
`selectedExpense` and `comment`. The `alert` is not modelled. -/
def handleAction (selectedExpense : Option Expense) (comment : String) (status : String) :
    InboxEffect :=
  match selectedExpense with
  | none => ⟨[], selectedExpense, comment⟩
  | some sel =>
    if status = "Rejected" ∧ jsTrim comment = "" then
      ⟨[], selectedExpense, comment⟩
    else
      ⟨[.PROCESS_APPROVAL sel.id status comment], none, ""⟩

/-! ## Sessions used as concrete inputs -/

/-- The state after `LOGIN` of the given user on `initialState`. -/
def sessionOf (u : User) : State :=
  { initialState with isAuthenticated := true, user := some u, currentPage := PAGES.DASHBOARD }

/-- The rule the rule editor holds after `handleConditionalChange` has set `percentage`
to 60, `specificApprover` to `'Director'` and `logic` to `'AND'` on the seed rule. -/
def hybridAndRule : Rule :=
  { defaultRule with
    conditional :=
      { type := some "None", percentage := some 60, specificApprover := some "Director",
        logic := some "AND" } }

/-- A user of role `'Finance'` (a role of the rule steps; no such user is in `mockUsers`). -/
def financeUser : User := { id := 5, role := "Finance", name := "Fiona Finance", managerId := some 1 }

/-- The expense a processed decision leaves in place of `exp`: status, step label and
comment are overwritten on an id match, every other expense is returned as it is. -/
def decided (id : Nat) (status label comment : String) (exp : Expense) : Expense :=
  if exp.id = id then
    { exp with status := status, currentStep := label, approvalComment := some comment }
  else exp

/-! ## Numbers

A finite JavaScript number is a rational, and an arithmetic operation returns the exact
result rounded to the nearest binary64 value, ties to even. The exponent is not bounded
here: the model is that of IEEE 754 for results of magnitude between `2 ^ (-1022)` and
`2 ^ 1024` (no overflow to `Infinity`, no subnormal results). -/

/-- Rounding of a rational to the nearest integer, ties to the even one. -/
def roundHalfEven (q : ℚ) : ℤ :=
  if q - ⌊q⌋ < 1 / 2 then ⌊q⌋
  else if 1 / 2 < q - ⌊q⌋ then ⌊q⌋ + 1
  else if ⌊q⌋ % 2 = 0 then ⌊q⌋ else ⌊q⌋ + 1

/-- The binary64 value nearest to `q` (ties to even): with `2 ^ e ≤ |q| < 2 ^ (e + 1)`,
the multiple of `2 ^ (e - 52)` nearest to `q`, that is a significand of 53 bits. -/
def toDouble (q : ℚ) : ℚ :=
  if q = 0 then 0
  else (roundHalfEven (q / 2 ^ (Int.log 2 |q| - 52)) : ℚ) * 2 ^ (Int.log 2 |q| - 52)

/-- The operator `*` on numbers. -/
def jsMul (a b : ℚ) : ℚ := toDouble (a * b)

/-- The decimal numeral with two fraction digits of `n / 100`. -/
def twoDecimals (n : Nat) : String :=
  toString (n / 100) ++ "." ++ (if n % 100 < 10 then "0" else "") ++ toString (n % 100)

/-- The method `Number.prototype.toFixed(2)`, for a number of magnitude below `10 ^ 21`:
with `n` the integer for which `n / 100` is nearest to the magnitude of `x` (the larger
one of two), the digits of `n` with a point before the last two, after the sign. -/
def toFixed2 (x : ℚ) : String :=
  (if x < 0 then "-" else "") ++ twoDecimals ⌊|x| * 100 + 1 / 2⌋.toNat

/-! ## Submit form -/

/-- The component state `formData` of `SubmitExpensePage`. The amount field belongs to an
input of type `number`: its text is empty (`none`) or a decimal numeral, given by the
number it denotes. -/
structure FormData where
  category : String
  originalAmount : Option ℚ
  originalCurrency : String
  description : String
  date : String
  receiptImage : Option String
  deriving DecidableEq, Repr

/-- What one call of `handleSubmit` does: the actions it dispatches, and the `formData`
it leaves. -/
structure SubmitEffect where
  dispatched : List Action
  formData : FormData
  deriving DecidableEq, Repr

/-- The handler `handleSubmit` of `SubmitExpensePage`, over the props `user` and
`baseCurrency` (which it does not read) and the component state `formData`; `today` is
`new Date().toISOString().substring(0, 10)`. The payload has no `id`, `status`,
`currentStep` or `approvalComment`; the first three are set by the reducer whatever
stands here. The `alert` is not modelled. -/
def handleSubmit (user : User) (baseCurrency : String) (formData : FormData)
    (today : String) : SubmitEffect :=
  match formData.originalAmount with
  | none => ⟨[], formData⟩
  | some text =>
    if formData.category = "" then ⟨[], formData⟩
    else
      let convertedAmount :=
        jsMul (toDouble text) (if formData.originalCurrency = "EUR" then toDouble (11 / 10) else 1)
      ⟨[.SUBMIT_EXPENSE
          { userId := user.id,
            employeeName := user.name,
            category := formData.category,
            originalAmount := .num (toDouble text),
            originalCurrency := formData.originalCurrency,
            companyAmount := .str (toFixed2 convertedAmount),
            date := formData.date,
            id := 0, status := "", currentStep := "", approvalComment := none },
        .NAVIGATE PAGES.DASHBOARD],
       { category := "", originalAmount := none, originalCurrency := "EUR", description := "",
         date := today, receiptImage := none }⟩

/-! ## Rule editor -/

/-- The object `{ ...rules, rule1: currentRule }`: the value of key `rule1` is replaced
where the key stands, or the key is added last. -/
def withRule1 (rules : Rules) (currentRule : Rule) : Rules :=
  if rules.any (fun kv => kv.1 == "rule1") then
    rules.map (fun kv => if kv.1 == "rule1" then ("rule1", currentRule) else kv)
  else rules ++ [("rule1", currentRule)]

/-- The action dispatched by the button `Save Rule Configuration` of `AdminRulesPage`. -/
def saveRuleAction (rules : Rules) (currentRule : Rule) : Action :=
  .SET_RULES (withRule1 rules currentRule)

/-- The handler `handleStepChange(action, stepId)` of `AdminRulesPage`: the rule that
`setCurrentRule` receives. `now` is the value of `Date.now()`; `stepId` is `none` when
the argument is left out, as in `handleStepChange('add')`. -/
def handleStepChange (now : Nat) (currentRule : Rule) (action : String)
    (stepId : Option Nat) : Rule :=
  let newSteps :=
    if action = "add" then currentRule.steps ++ [{ id := now, role := "New Role" }]
    else if action = "remove" then
      currentRule.steps.filter (fun step => some step.id != stepId)
    else currentRule.steps
  { currentRule with steps := newSteps }

/-! ## General lemmas -/

theorem mapM_eq_some_map {α β : Type} (f : α → Option β) (g : α → β)
    (h : ∀ x, f x = some (g x)) (l : List α) : l.mapM f = some (l.map g) := by
  induction l with
  | nil => rfl
  | cons a t ih =>
    rw [List.mapM_cons, h, ih]
    rfl

/-- When the step label can be computed (the decision is an approval, or a user is
logged in), `PROCESS_APPROVAL` returns, and maps `decided` over the expenses. -/
theorem appReducer_processApproval (now : Nat) (s : State) (id : Nat)
    (status comment label : String)
    (h : (if status = "Approved" then some "Completed"
          else s.user.map (fun u => "Rejected by " ++ u.name)) = some label) :
    appReducer now s (.PROCESS_APPROVAL id status comment) =
      some { s with
        expenses := s.expenses.map (decided id status label comment),
        message := some ⟨"success", "Expense " ++ status ++ "!"⟩ } := by
  simp only [appReducer, h]
  rw [mapM_eq_some_map _ (decided id status label comment)]
  · rfl
  · intro x
    unfold decided
    split <;> rfl

theorem label_of_user (s : State) (u : User) (status : String) (hu : s.user = some u) :
    (if status = "Approved" then some "Completed"
      else s.user.map (fun u => "Rejected by " ++ u.name)) =
    some (if status = "Approved" then "Completed" else "Rejected by " ++ u.name) := by
  rw [hu]
  split <;> rfl

theorem getElem?_map_decided (l : List Expense) (id : Nat) (status label comment : String)
    (i : Nat) (e : Expense) (hi : l[i]? = some e) (hid : e.id = id) :
    (l.map (decided id status label comment))[i]? =
      some { e with status := status, currentStep := label, approvalComment := some comment } := by
  rw [List.getElem?_map, hi]
  simp [decided, hid]

/-! ## Decisions -/

/-- C1: with a user logged in, `PROCESS_APPROVAL` with status `'Rejected'` returns a state
in which every expense that had the given id (at its position in the list) has status
`'Rejected'`, step label `"Rejected by " ++ name` of the logged-in user, and the payload
comment as `approvalComment`; and every expense of the new list with that id is in that
condition. -/
theorem reject_sets_rejected (now : Nat) (s : State) (u : User) (id : Nat) (comment : String)
    (hu : s.user = some u) :
    ∃ s2, appReducer now s (.PROCESS_APPROVAL id "Rejected" comment) = some s2 ∧
      s2.expenses.length = s.expenses.length ∧
      (∀ (i : Nat) (e : Expense), s.expenses[i]? = some e → e.id = id →
        s2.expenses[i]? = some { e with
          status := "Rejected",
          currentStep := "Rejected by " ++ u.name,
          approvalComment := some comment }) ∧
      (∀ e2 ∈ s2.expenses, e2.id = id →
        e2.status = "Rejected" ∧ e2.currentStep = "Rejected by " ++ u.name ∧
        e2.approvalComment = some comment) := by
  have hl := label_of_user s u "Rejected" hu
  rw [if_neg (by decide), if_neg (by decide)] at hl
  refine ⟨_, appReducer_processApproval now s id "Rejected" comment _ hl, ?_, ?_, ?_⟩
  · simp
  · intro i e hi hid
    exact getElem?_map_decided _ _ _ _ _ i e hi hid
  · intro e2 he2 hid2
    simp only [List.mem_map] at he2
    obtain ⟨e, _, rfl⟩ := he2
    unfold decided at hid2 ⊢
    split
    · exact ⟨rfl, rfl, rfl⟩
    · next hne =>
      rw [if_neg hne] at hid2
      exact absurd hid2 hne

/-- Witness of `reject_sets_rejected`: the admin rejects expense 101 of the seed list. -/
theorem reject_sets_rejected_witness :
    (sessionOf adminUser).user = some adminUser ∧
    ∃ s2, appReducer 0 (sessionOf adminUser) (.PROCESS_APPROVAL 101 "Rejected" "no receipt")
        = some s2 ∧
      s2.expenses.length = (sessionOf adminUser).expenses.length ∧
      (∀ (i : Nat) (e : Expense), (sessionOf adminUser).expenses[i]? = some e → e.id = 101 →
        s2.expenses[i]? = some { e with
          status := "Rejected",
          currentStep := "Rejected by " ++ adminUser.name,
          approvalComment := some "no receipt" }) ∧
      (∀ e2 ∈ s2.expenses, e2.id = 101 →
        e2.status = "Rejected" ∧ e2.currentStep = "Rejected by " ++ adminUser.name ∧
        e2.approvalComment = some "no receipt") :=
  ⟨rfl, reject_sets_rejected 0 (sessionOf adminUser) adminUser 101 "no receipt" rfl⟩

/-! ## Rejection needs a comment -/

theorem forall_mem_dropWhile {α : Type} (p : α → Bool) (l : List α) :
    (∀ x ∈ l.dropWhile p, p x = true) ↔ ∀ x ∈ l, p x = true := by
  induction l with
  | nil => simp
  | cons a t ih =>
    by_cases ha : p a = true
    · rw [List.dropWhile_cons_of_pos ha, ih]
      simp [ha]
    · rw [List.dropWhile_cons_of_neg ha]

/-- A string trims to the empty string exactly when all its characters are white space
(in particular when it is empty). -/
theorem jsTrim_eq_empty_iff (s : String) :
    jsTrim s = "" ↔ ∀ c ∈ s.data, isJsWhiteSpace c = true := by
  unfold jsTrim
  rw [String.ext_iff]
  show ((s.data.dropWhile isJsWhiteSpace).reverse.dropWhile isJsWhiteSpace).reverse = [] ↔ _
  rw [List.reverse_eq_nil_iff, List.dropWhile_eq_nil_iff]
  simp only [List.mem_reverse]
  exact forall_mem_dropWhile isJsWhiteSpace s.data

/-- C2: with an expense selected, `handleAction('Rejected')` dispatches nothing when the
comment is empty or consists of white space only, so that the state (and its expense
list) stays as it is and the component keeps its selection and comment; when the comment
is not blank it dispatches exactly one `PROCESS_APPROVAL` for the selected expense, with
status `'Rejected'` and the comment as typed (not trimmed). -/
theorem handleAction_reject_comment (sel : Expense) (comment : String) :
    ((∀ c ∈ comment.data, isJsWhiteSpace c = true) →
      handleAction (some sel) comment "Rejected" = ⟨[], some sel, comment⟩ ∧
      ∀ (now : Nat) (s : State),
        dispatchAll now s (handleAction (some sel) comment "Rejected").dispatched = some s) ∧
    (¬ (∀ c ∈ comment.data, isJsWhiteSpace c = true) →
      (handleAction (some sel) comment "Rejected").dispatched =
        [.PROCESS_APPROVAL sel.id "Rejected" comment]) := by
  constructor
  · intro hblank
    have ht : jsTrim comment = "" := (jsTrim_eq_empty_iff comment).2 hblank
    have h : handleAction (some sel) comment "Rejected" = ⟨[], some sel, comment⟩ := by
      simp [handleAction, ht]
    refine ⟨h, ?_⟩
    intro now s
    rw [h]
    rfl
  · intro hnot
    have ht : ¬ jsTrim comment = "" := fun h => hnot ((jsTrim_eq_empty_iff comment).1 h)
    simp [handleAction, ht]

/-- Witness of `handleAction_reject_comment`: a comment of a blank, a tab and a line feed
dispatches nothing; the comment `" duplicate "` is dispatched untrimmed. -/
theorem handleAction_reject_comment_witness :
    (handleAction (some expense101) " \t\n" "Rejected" = ⟨[], some expense101, " \t\n"⟩ ∧
      ∀ (now : Nat) (s : State),
        dispatchAll now s (handleAction (some expense101) " \t\n" "Rejected").dispatched
          = some s) ∧
    (handleAction (some expense101) " duplicate " "Rejected").dispatched =
      [.PROCESS_APPROVAL 101 "Rejected" " duplicate "] :=
  ⟨(handleAction_reject_comment expense101 " \t\n").1 (by decide),
   (handleAction_reject_comment expense101 " duplicate ").2 (by decide)⟩

/-! ## What the reducer does not check -/

theorem not_mem_pendingExpenses_of_status (v : User) (l : List Expense) (e : Expense)
    (h : e.status ≠ "Pending") : e ∉ pendingExpenses v l := by
  unfold pendingExpenses
  simp [List.mem_filter, h]

/-- C3 (counterexample): expense 102 of the seed list is `'Approved'`; a
`PROCESS_APPROVAL` with status `'Rejected'` for id 102 turns it into a rejected expense. -/
theorem finalized_unchanged_counterexample :
    (sessionOf adminUser).expenses[1]? = some expense102 ∧
    expense102.id = 102 ∧ expense102.status = "Approved" ∧
    ∃ s2, appReducer 0 (sessionOf adminUser) (.PROCESS_APPROVAL 102 "Rejected" "late")
        = some s2 ∧
      s2.expenses[1]? = some { expense102 with
        status := "Rejected",
        currentStep := "Rejected by Ava Admin",
        approvalComment := some "late" } ∧
      s2.expenses[1]? ≠ some expense102 :=
  ⟨rfl, rfl, rfl, _, rfl, rfl, by decide⟩

/-- C3 (amended): `appReducer` does not look at the status an expense already has. With a
user logged in, a `PROCESS_APPROVAL` for the id of an expense that is `'Approved'` or
`'Rejected'` overwrites its status, step label and comment and keeps its other fields;
what keeps decisions away from such an expense is the inbox: it is in no user's
`pendingExpenses`. -/
theorem finalized_overwritten (now : Nat) (s : State) (u : User) (id : Nat)
    (status comment : String) (i : Nat) (e : Expense)
    (hu : s.user = some u) (hi : s.expenses[i]? = some e) (hid : e.id = id)
    (hfin : e.status = "Approved" ∨ e.status = "Rejected") :
    (∀ v : User, e ∉ pendingExpenses v s.expenses) ∧
    ∃ s2, appReducer now s (.PROCESS_APPROVAL id status comment) = some s2 ∧
      s2.expenses[i]? = some { e with
        status := status,
        currentStep := if status = "Approved" then "Completed" else "Rejected by " ++ u.name,
        approvalComment := some comment } := by
  constructor
  · intro v
    apply not_mem_pendingExpenses_of_status
    rcases hfin with h | h <;> rw [h] <;> decide
  · exact ⟨_, appReducer_processApproval now s id status comment _ (label_of_user s u status hu),
      getElem?_map_decided _ _ _ _ _ i e hi hid⟩

/-- Witness of `finalized_overwritten`: the admin rejects the approved expense 102. -/
theorem finalized_overwritten_witness :
    ((sessionOf adminUser).user = some adminUser ∧
      (sessionOf adminUser).expenses[1]? = some expense102 ∧ expense102.id = 102 ∧
      (expense102.status = "Approved" ∨ expense102.status = "Rejected")) ∧
    ((∀ v : User, expense102 ∉ pendingExpenses v (sessionOf adminUser).expenses) ∧
    ∃ s2, appReducer 0 (sessionOf adminUser) (.PROCESS_APPROVAL 102 "Rejected" "late")
        = some s2 ∧
      s2.expenses[1]? = some { expense102 with
        status := "Rejected",
        currentStep :=
          if "Rejected" = "Approved" then "Completed" else "Rejected by " ++ adminUser.name,
        approvalComment := some "late" }) :=
  ⟨⟨rfl, rfl, rfl, Or.inl rfl⟩,
   finalized_overwritten 0 (sessionOf adminUser) adminUser 102 "Rejected" "late" 1 expense102
     rfl rfl rfl (Or.inl rfl)⟩

/-- C4 (counterexample): the employee (role `'Employee'`, not Admin) approves expense 101,
which is pending at `'Manager'`; the expense does not stay as it was. -/
theorem unauthorized_unchanged_counterexample :
    (sessionOf employeeUser).user = some employeeUser ∧
    employeeUser.role ≠ ROLES.ADMIN ∧ employeeUser.role ≠ expense101.currentStep ∧
    (sessionOf employeeUser).expenses[0]? = some expense101 ∧ expense101.id = 101 ∧
    ∃ s2, appReducer 0 (sessionOf employeeUser) (.PROCESS_APPROVAL 101 "Approved" "")
        = some s2 ∧
      s2.expenses[0]? = some { expense101 with
        status := "Approved",
        currentStep := "Completed",
        approvalComment := some "" } ∧
      s2.expenses[0]? ≠ some expense101 :=
  ⟨rfl, by decide, by decide, rfl, rfl, _, rfl, rfl, by decide⟩

/-- C4 (amended): `appReducer` does not look at the role of the logged-in user. When the
user is not an Admin and the role differs from the step the expense is at, the expense
is not in that user's `pendingExpenses` (so the inbox offers no decision on it), while a
`PROCESS_APPROVAL` for its id is applied all the same. -/
theorem role_not_checked (now : Nat) (s : State) (u : User) (id : Nat)
    (status comment : String) (i : Nat) (e : Expense)
    (hu : s.user = some u) (hi : s.expenses[i]? = some e) (hid : e.id = id)
    (hadmin : u.role ≠ ROLES.ADMIN) (hrole : u.role ≠ e.currentStep) :
    e ∉ pendingExpenses u s.expenses ∧
    ∃ s2, appReducer now s (.PROCESS_APPROVAL id status comment) = some s2 ∧
      s2.expenses[i]? = some { e with
        status := status,
        currentStep := if status = "Approved" then "Completed" else "Rejected by " ++ u.name,
        approvalComment := some comment } := by
  constructor
  · unfold pendingExpenses
    simp only [List.mem_filter, not_and, Bool.and_eq_true, Bool.or_eq_true, beq_iff_eq]
    intro _ _ hor
    rcases hor with h | ⟨h1, h2⟩
    · exact hadmin h
    · exact hrole (h1.trans h2.symm)
  · exact ⟨_, appReducer_processApproval now s id status comment _ (label_of_user s u status hu),
      getElem?_map_decided _ _ _ _ _ i e hi hid⟩

/-- Witness of `role_not_checked`: the employee approves expense 101. -/
theorem role_not_checked_witness :
    expense101 ∉ pendingExpenses employeeUser (sessionOf employeeUser).expenses ∧
    ∃ s2, appReducer 0 (sessionOf employeeUser) (.PROCESS_APPROVAL 101 "Approved" "")
        = some s2 ∧
      s2.expenses[0]? = some { expense101 with
        status := "Approved",
        currentStep :=
          if "Approved" = "Approved" then "Completed" else "Rejected by " ++ employeeUser.name,
        approvalComment := some "" } :=
  role_not_checked 0 (sessionOf employeeUser) employeeUser 101 "Approved" "" 0 expense101
    rfl rfl rfl (by decide) (by decide)

/-! ## Approvals and the rule

The hypotheses on the rule and on the step an expense is at are those of the properties
as stated; `appReducer` reads neither, so the proofs do not use them. -/


theorem approve_completes (now : Nat) (s : State) (id : Nat) (comment : String) (i : Nat)
    (e : Expense) (hi : s.expenses[i]? = some e) (hid : e.id = id) :
    ∃ s2, appReducer now s (.PROCESS_APPROVAL id "Approved" comment) = some s2 ∧
      s2.expenses[i]? = some { e with
        status := "Approved",
        currentStep := "Completed",
        approvalComment := some comment } :=
  ⟨_, appReducer_processApproval now s id "Approved" comment "Completed" (if_pos rfl),
    getElem?_map_decided _ _ _ _ _ i e hi hid⟩

/-- C5 (counterexample): under the seed rule (Manager, Finance, Director, conditional
type `'None'`) the manager approves expense 101, pending at `'Manager'`; the expense is
then `'Approved'` with step `'Completed'`, not `'Pending'` at `'Finance'`. -/
theorem approval_advances_one_step_counterexample :
    (sessionOf managerUser).rules = mockApprovalRules ∧
    defaultRule.steps.map (fun st => st.role) = ["Manager", "Finance", "Director"] ∧
    defaultRule.conditional.type = some "None" ∧
    (sessionOf managerUser).expenses[0]? = some expense101 ∧
    expense101.id = 101 ∧ expense101.status = "Pending" ∧ expense101.currentStep = "Manager" ∧
    ∃ s2 e2, appReducer 0 (sessionOf managerUser) (.PROCESS_APPROVAL 101 "Approved" "ok")
        = some s2 ∧
      s2.expenses[0]? = some e2 ∧ e2.status = "Approved" ∧ e2.currentStep = "Completed" ∧
      e2.status ≠ "Pending" ∧ e2.currentStep ≠ "Finance" :=
  ⟨rfl, rfl, rfl, rfl, rfl, rfl, rfl, _, _, rfl, rfl, rfl, rfl, by decide, by decide⟩

/-- C5 (amended): in a state whose rules are the seed rules, one `PROCESS_APPROVAL` with
status `'Approved'` for an expense pending at `'Manager'` returns a state in which that
expense is `'Approved'` with step `'Completed'` and the comment recorded: the steps of
the rule are not consulted, and the expense is finished by the first approval. -/
theorem approval_completes_at_first_step (now : Nat) (s : State) (id : Nat) (comment : String)
    (i : Nat) (e : Expense) (hrules : s.rules = mockApprovalRules)
    (hi : s.expenses[i]? = some e) (hid : e.id = id)
    (hpending : e.status = "Pending") (hstep : e.currentStep = "Manager") :
    ∃ s2, appReducer now s (.PROCESS_APPROVAL id "Approved" comment) = some s2 ∧
      s2.rules = mockApprovalRules ∧
      s2.expenses[i]? = some { e with
        status := "Approved",
        currentStep := "Completed",
        approvalComment := some comment } :=
  ⟨_, appReducer_processApproval now s id "Approved" comment "Completed" (if_pos rfl),
    hrules, getElem?_map_decided _ _ _ _ _ i e hi hid⟩

/-- Witness of `approval_completes_at_first_step`: the manager approves expense 101. -/
theorem approval_completes_at_first_step_witness :
    ∃ s2, appReducer 0 (sessionOf managerUser) (.PROCESS_APPROVAL 101 "Approved" "ok")
        = some s2 ∧
      s2.rules = mockApprovalRules ∧
      s2.expenses[0]? = some { expense101 with
        status := "Approved",
        currentStep := "Completed",
        approvalComment := some "ok" } :=
  approval_completes_at_first_step 0 (sessionOf managerUser) 101 "ok" 0 expense101
    rfl rfl rfl rfl rfl

/-- C6: for every state (logged in or not) and every expense that is pending at the last
step of rule `rule1` (`'Director'` under the seed rule), `PROCESS_APPROVAL` with status
`'Approved'` for its id returns a state in which that expense has status `'Approved'` and
step `'Completed'`, its other fields kept and the comment recorded. -/
theorem approval_at_last_step (now : Nat) (s : State) (r : Rule) (st : Step) (id : Nat)
    (comment : String) (i : Nat) (e : Expense)
    (hrule : s.rules.lookup "rule1" = some r) (hlast : r.steps.getLast? = some st)
    (hi : s.expenses[i]? = some e) (hid : e.id = id)
    (hpending : e.status = "Pending") (hstep : e.currentStep = st.role) :
    ∃ s2 e2, appReducer now s (.PROCESS_APPROVAL id "Approved" comment) = some s2 ∧
      s2.expenses[i]? = some e2 ∧ e2.status = "Approved" ∧ e2.currentStep = "Completed" ∧
      e2 = { e with
        status := "Approved",
        currentStep := "Completed",
        approvalComment := some comment } := by
  obtain ⟨s2, h1, h2⟩ := approve_completes now s id comment i e hi hid
  exact ⟨s2, _, h1, h2, rfl, rfl, rfl⟩

/-- Witness of `approval_at_last_step`: under the seed rule, with nobody logged in, an
expense pending at `'Director'` is approved. -/
theorem approval_at_last_step_witness :
    ∃ s2 e2, appReducer 0
        { initialState with expenses := [{ expense101 with currentStep := "Director" }] }
        (.PROCESS_APPROVAL 101 "Approved" "fine") = some s2 ∧
      s2.expenses[0]? = some e2 ∧ e2.status = "Approved" ∧ e2.currentStep = "Completed" ∧
      e2 = { ({ expense101 with currentStep := "Director" } : Expense) with
        status := "Approved",
        currentStep := "Completed",
        approvalComment := some "fine" } :=
  approval_at_last_step 0
    { initialState with expenses := [{ expense101 with currentStep := "Director" }] }
    defaultRule ⟨3, "Director"⟩ 101 "fine" 0 { expense101 with currentStep := "Director" }
    rfl rfl rfl rfl rfl rfl

/-- C7 (counterexample): the rule has three steps and the conditional
`{logic: 'AND', percentage: 60, specificApprover: 'Director'}`; the manager (not a
Director) approves expense 101, pending at the first step, and the expense is
`'Approved'`. -/
theorem and_rule_blocks_approval_counterexample :
    ({ sessionOf managerUser with rules := [("rule1", hybridAndRule)] } : State).rules.lookup
      "rule1" = some hybridAndRule ∧
    hybridAndRule.steps.length = 3 ∧
    hybridAndRule.conditional.logic = some "AND" ∧
    hybridAndRule.conditional.percentage = some 60 ∧
    hybridAndRule.conditional.specificApprover = some "Director" ∧
    managerUser.role ≠ "Director" ∧
    expense101.status = "Pending" ∧
    hybridAndRule.steps.head?.map (fun st => st.role) = some expense101.currentStep ∧
    ∃ s2 e2, appReducer 0 { sessionOf managerUser with rules := [("rule1", hybridAndRule)] }
        (.PROCESS_APPROVAL 101 "Approved" "ok") = some s2 ∧
      s2.expenses[0]? = some e2 ∧ e2.id = 101 ∧ e2.status = "Approved" :=
  ⟨rfl, rfl, rfl, rfl, rfl, by decide, rfl, rfl, _, _, rfl, rfl, rfl, rfl⟩

/-- C7 (amended): under a rule of three steps with conditional
`{logic: 'AND', percentage: 60, specificApprover: 'Director'}`, an approval by a user who
is not a Director, of an expense pending at the first step, returns a state in which the
expense is `'Approved'` with step `'Completed'`: the conditional of the rule is not
consulted. -/
theorem and_rule_not_consulted (now : Nat) (s : State) (u : User) (r : Rule) (st : Step)
    (id : Nat) (comment : String) (i : Nat) (e : Expense)
    (hu : s.user = some u) (hnotDirector : u.role ≠ "Director")
    (hrule : s.rules.lookup "rule1" = some r) (hsteps : r.steps.length = 3)
    (hlogic : r.conditional.logic = some "AND")
    (hpercentage : r.conditional.percentage = some 60)
    (hspecific : r.conditional.specificApprover = some "Director")
    (hfirst : r.steps.head? = some st)
    (hi : s.expenses[i]? = some e) (hid : e.id = id)
    (hpending : e.status = "Pending") (hstep : e.currentStep = st.role) :
    ∃ s2 e2, appReducer now s (.PROCESS_APPROVAL id "Approved" comment) = some s2 ∧
      s2.expenses[i]? = some e2 ∧ e2.status = "Approved" ∧ e2.currentStep = "Completed" := by
  obtain ⟨s2, h1, h2⟩ := approve_completes now s id comment i e hi hid
  exact ⟨s2, _, h1, h2, rfl, rfl⟩

/-- Witness of `and_rule_not_consulted`: the manager approves expense 101 under the
hybrid AND rule. -/
theorem and_rule_not_consulted_witness :
    ∃ s2 e2, appReducer 0 { sessionOf managerUser with rules := [("rule1", hybridAndRule)] }
        (.PROCESS_APPROVAL 101 "Approved" "ok") = some s2 ∧
      s2.expenses[0]? = some e2 ∧ e2.status = "Approved" ∧ e2.currentStep = "Completed" :=
  and_rule_not_consulted 0 { sessionOf managerUser with rules := [("rule1", hybridAndRule)] }
    managerUser hybridAndRule ⟨1, "Manager"⟩ 101 "ok" 0 expense101
    rfl (by decide) rfl rfl rfl rfl rfl rfl rfl rfl rfl rfl

/-! ## Queries -/

/-- C8 (counterexample): for a user of role `'Finance'` and an expense pending at
`'Finance'`, the list of pending expenses whose step equals the role of the user has
that expense, and `pendingExpenses` is empty. -/
theorem pendingExpenses_by_role_counterexample :
    [({ expense101 with currentStep := "Finance" } : Expense)].filter (fun exp =>
      decide (exp.status = "Pending" ∧
        (financeUser.role = ROLES.ADMIN ∨ exp.currentStep = financeUser.role)))
      = [{ expense101 with currentStep := "Finance" }] ∧
    pendingExpenses financeUser [{ expense101 with currentStep := "Finance" }] = [] ∧
    pendingExpenses financeUser [{ expense101 with currentStep := "Finance" }] ≠
      [({ expense101 with currentStep := "Finance" } : Expense)].filter (fun exp =>
        decide (exp.status = "Pending" ∧
          (financeUser.role = ROLES.ADMIN ∨ exp.currentStep = financeUser.role))) :=
  ⟨by decide, by decide, by decide⟩

/-- C8 (amended): `pendingExpenses` is the sub-list, in the original order, of the expenses
whose status is `'Pending'` and for which the user is Admin, or the user is a Manager and
the expense is at step `'Manager'`; for a user of any other role (such as `'Finance'`)
it is empty, whatever step the expenses are at. -/
theorem pendingExpenses_spec (user : User) (expenses : List Expense) :
    pendingExpenses user expenses = expenses.filter (fun exp =>
      decide (exp.status = "Pending" ∧
        (user.role = ROLES.ADMIN ∨ (user.role = ROLES.MANAGER ∧ exp.currentStep = "Manager")))) ∧
    List.Sublist (pendingExpenses user expenses) expenses ∧
    (∀ exp, exp ∈ pendingExpenses user expenses ↔
      exp ∈ expenses ∧ exp.status = "Pending" ∧
        (user.role = ROLES.ADMIN ∨ (user.role = ROLES.MANAGER ∧ exp.currentStep = "Manager"))) ∧
    (user.role ≠ ROLES.ADMIN → user.role ≠ ROLES.MANAGER → pendingExpenses user expenses = []) := by
  refine ⟨?_, ?_, ?_, ?_⟩
  · unfold pendingExpenses
    congr 1
    funext exp
    rw [Bool.eq_iff_iff]
    simp
  · exact List.filter_sublist _
  · intro exp
    unfold pendingExpenses
    simp [List.mem_filter]
  · intro h1 h2
    unfold pendingExpenses
    simp [List.filter_eq_nil_iff, h1, h2]

/-- Witness of `pendingExpenses_spec`: the inbox of a Finance user over an expense
pending at `'Finance'` is empty; the inbox of the manager over the seed list is
expense 101. -/
theorem pendingExpenses_spec_witness :
    pendingExpenses financeUser [{ expense101 with currentStep := "Finance" }] = [] ∧
    (expense101 ∈ pendingExpenses managerUser initialExpenses ↔
      expense101 ∈ initialExpenses ∧ expense101.status = "Pending" ∧
        (managerUser.role = ROLES.ADMIN ∨
          (managerUser.role = ROLES.MANAGER ∧ expense101.currentStep = "Manager"))) :=
  ⟨(pendingExpenses_spec financeUser [{ expense101 with currentStep := "Finance" }]).2.2.2
      (by decide) (by decide),
   (pendingExpenses_spec managerUser initialExpenses).2.2.1 expense101⟩

/-- C9: `userExpenses` is the list of the expenses whose `userId` is the id of the user,
in the original order, when the role of the user is `'Employee'`, and the whole expense
list for every other role. -/
theorem userExpenses_spec (user : User) (expenses : List Expense) :
    (user.role = ROLES.EMPLOYEE →
      userExpenses user expenses = expenses.filter (fun exp => decide (exp.userId = user.id)) ∧
      List.Sublist (userExpenses user expenses) expenses ∧
      ∀ exp, exp ∈ userExpenses user expenses ↔ exp ∈ expenses ∧ exp.userId = user.id) ∧
    (user.role ≠ ROLES.EMPLOYEE → userExpenses user expenses = expenses) := by
  constructor
  · intro h
    have hu : userExpenses user expenses =
        expenses.filter (fun exp => decide (exp.userId = user.id)) := by
      unfold userExpenses
      rw [if_pos h]
      rfl
    refine ⟨hu, ?_, ?_⟩
    · rw [hu]
      exact List.filter_sublist _
    · intro exp
      rw [hu]
      simp [List.mem_filter]
  · intro h
    unfold userExpenses
    rw [if_neg h]

/-- Witness of `userExpenses_spec`: the employee sees the two seed expenses of user 3,
the manager and the admin see the whole seed list. -/
theorem userExpenses_spec_witness :
    userExpenses employeeUser initialExpenses =
      initialExpenses.filter (fun exp => decide (exp.userId = employeeUser.id)) ∧
    userExpenses employeeUser initialExpenses = [expense101, expense102] ∧
    userExpenses managerUser initialExpenses = initialExpenses ∧
    userExpenses adminUser initialExpenses = initialExpenses :=
  ⟨((userExpenses_spec employeeUser initialExpenses).1 (by decide)).1,
   by decide,
   (userExpenses_spec managerUser initialExpenses).2 (by decide),
   (userExpenses_spec adminUser initialExpenses).2 (by decide)⟩

/-! ## Submission -/

/-- C10: for every state, clock value and payload (whatever `id`, `status` and
`currentStep` the payload carries), `SUBMIT_EXPENSE` returns a state whose expense list
is one new expense followed by the previous list; the new expense has status `'Pending'`
and step `'Manager'`, the clock value as id, and the other fields of the payload. -/
theorem submit_prepends_pending (now : Nat) (s : State) (payload : Expense) :
    ∃ s2 e, appReducer now s (.SUBMIT_EXPENSE payload) = some s2 ∧
      s2.expenses = e :: s.expenses ∧
      e.status = "Pending" ∧ e.currentStep = "Manager" ∧ e.id = now ∧
      e = { payload with id := now, status := "Pending", currentStep := "Manager" } ∧
      s2.expenses.length = s.expenses.length + 1 ∧
      (∀ i : Nat, s2.expenses[i + 1]? = s.expenses[i]?) :=
  ⟨_, _, rfl, rfl, rfl, rfl, rfl, rfl, rfl, fun _ => by simp⟩

/-! ## The reducer and the expense list -/

theorem mapM_eq_some_map_of_mem {α β : Type} (f : α → Option β) (g : α → β) (l : List α)
    (h : ∀ x ∈ l, f x = some (g x)) : l.mapM f = some (l.map g) := by
  induction l with
  | nil => rfl
  | cons a t ih =>
    rw [List.mapM_cons, h a (List.mem_cons_self a t),
      ih (fun x hx => h x (List.mem_cons_of_mem a hx))]
    rfl

theorem mapM_guard_eq_some (id : Nat) (l l2 : List Expense)
    (h : l.mapM (fun exp => if exp.id = id then (none : Option Expense) else some exp) = some l2) :
    l2 = l ∧ ∀ e ∈ l, e.id ≠ id := by
  induction l generalizing l2 with
  | nil =>
    rw [List.mapM_nil] at h
    cases h
    simp
  | cons a t ih =>
    rw [List.mapM_cons] at h
    by_cases ha : a.id = id
    · simp [ha] at h
    · simp only [if_neg ha] at h
      cases ht : t.mapM (fun exp => if exp.id = id then (none : Option Expense) else some exp) with
      | none =>
        rw [ht] at h
        cases h
      | some t2 =>
        obtain ⟨h1, h2⟩ := ih t2 ht
        rw [ht] at h
        have h3 : a :: t2 = l2 := Option.some.inj h
        subst h3 h1
        refine ⟨rfl, ?_⟩
        intro e he
        rcases List.mem_cons.1 he with rfl | he
        · exact ha
        · exact h2 e he

theorem map_decided_of_no_match (id : Nat) (status label comment : String) (l : List Expense)
    (h : ∀ e ∈ l, e.id ≠ id) : l.map (decided id status label comment) = l := by
  induction l with
  | nil => rfl
  | cons a t ih =>
    rw [List.map_cons, ih (fun e he => h e (List.mem_cons_of_mem a he))]
    simp [decided, h a (List.mem_cons_self a t)]

/-- Every state that `PROCESS_APPROVAL` returns is the given state with `decided` mapped
over the expenses, for some step label, and with the message set. -/
theorem appReducer_processApproval_inv (now : Nat) (s s2 : State) (id : Nat)
    (status comment : String)
    (h : appReducer now s (.PROCESS_APPROVAL id status comment) = some s2) :
    ∃ label, s2 = { s with
      expenses := s.expenses.map (decided id status label comment),
      message := some ⟨"success", "Expense " ++ status ++ "!"⟩ } := by
  cases hl : (if status = "Approved" then some "Completed"
      else s.user.map (fun u => "Rejected by " ++ u.name)) with
  | some label =>
    rw [appReducer_processApproval now s id status comment label hl] at h
    exact ⟨label, (Option.some.inj h).symm⟩
  | none =>
    simp only [appReducer, hl, Option.map_none'] at h
    cases hm : s.expenses.mapM
        (fun exp => if exp.id = id then (none : Option Expense) else some exp) with
    | none =>
      rw [hm] at h
      cases h
    | some l2 =>
      obtain ⟨h1, h2⟩ := mapM_guard_eq_some id s.expenses l2 hm
      rw [hm] at h
      refine ⟨"", ?_⟩
      rw [map_decided_of_no_match id status "" comment s.expenses h2, ← Option.some.inj h, h1]

/-- The cases in which `PROCESS_APPROVAL` returns: a user is logged in, or the decision
is an approval, or no expense has the id. -/
theorem appReducer_processApproval_returns (now : Nat) (s : State) (id : Nat)
    (status comment : String)
    (h : s.user ≠ none ∨ status = "Approved" ∨ ∀ e ∈ s.expenses, e.id ≠ id) :
    ∃ s2, appReducer now s (.PROCESS_APPROVAL id status comment) = some s2 := by
  rcases h with h | h | h
  · obtain ⟨u, hu⟩ := Option.ne_none_iff_exists'.1 h
    exact ⟨_, appReducer_processApproval now s id status comment _ (label_of_user s u status hu)⟩
  · subst h
    exact ⟨_, appReducer_processApproval now s id "Approved" comment "Completed" (if_pos rfl)⟩
  · simp only [appReducer]
    rw [mapM_eq_some_map_of_mem _ (fun e => e) s.expenses]
    · exact ⟨_, rfl⟩
    · intro x hx
      rw [if_neg (h x hx)]

theorem decided_id (id : Nat) (status label comment : String) (e : Expense) :
    (decided id status label comment e).id = e.id := by
  unfold decided
  split <;> rfl

theorem decided_comm (id1 id2 : Nat) (st1 l1 c1 st2 l2 c2 : String) (hne : id1 ≠ id2)
    (e : Expense) :
    decided id1 st1 l1 c1 (decided id2 st2 l2 c2 e) =
      decided id2 st2 l2 c2 (decided id1 st1 l1 c1 e) := by
  by_cases h1 : e.id = id1
  · have h2 : e.id ≠ id2 := fun h => hne (h1.symm.trans h)
    simp [decided, h1, h2, hne]
  · by_cases h2 : e.id = id2
    · simp [decided, h1, h2, Ne.symm hne]
    · simp [decided, h1, h2]

/-- C11 (counterexample): the employee submits an expense, which gets the clock value
1760000000000 as id; after `LOGOUT` no expense has that id. -/
theorem no_action_deletes_counterexample :
    ∃ s1 s2, appReducer 1760000000000 (sessionOf employeeUser)
        (.SUBMIT_EXPENSE { expense101 with category := "Meals" }) = some s1 ∧
      (∃ e ∈ s1.expenses, e.id = 1760000000000) ∧
      appReducer 1760000000001 s1 .LOGOUT = some s2 ∧
      ∀ e ∈ s2.expenses, e.id ≠ 1760000000000 :=
  ⟨_, _, rfl, ⟨_, List.mem_cons_self _ _, rfl⟩, rfl, by decide⟩

/-- C11 (amended): every action other than `LOGOUT` keeps the expense ids: whenever
`appReducer` returns a state, every id of the previous expense list is an id of the new
one, and it does return when a user is logged in or the action is not a
`PROCESS_APPROVAL`. `LOGOUT` returns `initialState`, whose expense list is the seed list
`initialExpenses`: the ids of the expenses submitted since are gone. -/
theorem ids_kept_except_logout (now : Nat) (s : State) (a : Action) :
    (a ≠ .LOGOUT → ∀ s2, appReducer now s a = some s2 →
      ∀ e ∈ s.expenses, ∃ e2 ∈ s2.expenses, e2.id = e.id) ∧
    (a ≠ .LOGOUT →
      (s.user ≠ none ∨ ∀ id status comment, a ≠ .PROCESS_APPROVAL id status comment) →
      ∃ s2, appReducer now s a = some s2) ∧
    (∃ s2, appReducer now s .LOGOUT = some s2 ∧ s2.expenses = initialExpenses) := by
  refine ⟨?_, ?_, ⟨_, rfl, rfl⟩⟩
  · intro hne s2 h e he
    cases a with
    | LOGOUT => exact absurd rfl hne
    | PROCESS_APPROVAL id status comment =>
      obtain ⟨label, rfl⟩ := appReducer_processApproval_inv now s s2 id status comment h
      exact ⟨decided id status label comment e, List.mem_map_of_mem _ he, decided_id _ _ _ _ e⟩
    | SUBMIT_EXPENSE payload =>
      cases Option.some.inj h
      exact ⟨e, List.mem_cons_of_mem _ he, rfl⟩
    | LOGIN user =>
      cases Option.some.inj h
      exact ⟨e, he, rfl⟩
    | NAVIGATE page =>
      cases Option.some.inj h
      exact ⟨e, he, rfl⟩
    | SET_RULES rules =>
      cases Option.some.inj h
      exact ⟨e, he, rfl⟩
    | SET_MESSAGE payload =>
      cases Option.some.inj h
      exact ⟨e, he, rfl⟩
    | OTHER type =>
      cases Option.some.inj h
      exact ⟨e, he, rfl⟩
  · intro hne hret
    cases a with
    | LOGOUT => exact absurd rfl hne
    | PROCESS_APPROVAL id status comment =>
      rcases hret with hu | hn
      · exact appReducer_processApproval_returns now s id status comment (Or.inl hu)
      · exact absurd rfl (hn id status comment)
    | SUBMIT_EXPENSE payload => exact ⟨_, rfl⟩
    | LOGIN user => exact ⟨_, rfl⟩
    | NAVIGATE page => exact ⟨_, rfl⟩
    | SET_RULES rules => exact ⟨_, rfl⟩
    | SET_MESSAGE payload => exact ⟨_, rfl⟩
    | OTHER type => exact ⟨_, rfl⟩

/-- Witness of `ids_kept_except_logout`: the manager approves expense 101 of the seed
list, and every seed id is still there. -/
theorem ids_kept_except_logout_witness :
    (∀ s2, appReducer 0 (sessionOf managerUser) (.PROCESS_APPROVAL 101 "Approved" "ok") = some s2 →
      ∀ e ∈ (sessionOf managerUser).expenses, ∃ e2 ∈ s2.expenses, e2.id = e.id) ∧
    (∃ s2, appReducer 0 (sessionOf managerUser) (.PROCESS_APPROVAL 101 "Approved" "ok")
      = some s2) :=
  ⟨(ids_kept_except_logout 0 (sessionOf managerUser) (.PROCESS_APPROVAL 101 "Approved" "ok")).1
      (by decide),
   (ids_kept_except_logout 0 (sessionOf managerUser)
      (.PROCESS_APPROVAL 101 "Approved" "ok")).2.1 (by decide) (Or.inl (by decide))⟩

/-- C12 (counterexample): two `SUBMIT_EXPENSE` actions reduced at the same clock value:
the ids are pairwise distinct after the first and not after the second. -/
theorem ids_unique_counterexample :
    ∃ s1 s2, appReducer 1760000000000 (sessionOf employeeUser)
        (.SUBMIT_EXPENSE { expense101 with category := "Meals" }) = some s1 ∧
      (s1.expenses.map (fun e => e.id)).Nodup ∧
      appReducer 1760000000000 s1 (.SUBMIT_EXPENSE { expense101 with category := "Taxi" })
        = some s2 ∧
      s2.expenses.map (fun e => e.id) = [1760000000000, 1760000000000, 101, 102, 103] ∧
      ¬ (s2.expenses.map (fun e => e.id)).Nodup :=
  ⟨_, _, rfl, by decide, rfl, rfl, by decide⟩

/-- C12 (amended): for every state whose expense ids are pairwise distinct and every
`SUBMIT_EXPENSE`, the ids of the returned state are pairwise distinct when the clock
value is not yet the id of an expense, and only then. -/
theorem ids_unique_of_fresh_clock (now : Nat) (s : State) (payload : Expense)
    (hnodup : (s.expenses.map (fun e => e.id)).Nodup) :
    ∃ s2, appReducer now s (.SUBMIT_EXPENSE payload) = some s2 ∧
      s2.expenses.map (fun e => e.id) = now :: s.expenses.map (fun e => e.id) ∧
      ((s2.expenses.map (fun e => e.id)).Nodup ↔ now ∉ s.expenses.map (fun e => e.id)) := by
  refine ⟨_, rfl, rfl, ?_⟩
  show (now :: s.expenses.map (fun e => e.id)).Nodup ↔ _
  rw [List.nodup_cons]
  exact ⟨fun h => h.1, fun h => ⟨h, hnodup⟩⟩

/-- Witness of `ids_unique_of_fresh_clock`: a submission on the seed list at clock value
1760000000000. -/
theorem ids_unique_of_fresh_clock_witness :
    ∃ s2, appReducer 1760000000000 (sessionOf employeeUser) (.SUBMIT_EXPENSE expense101)
        = some s2 ∧
      s2.expenses.map (fun e => e.id) =
        1760000000000 :: (sessionOf employeeUser).expenses.map (fun e => e.id) ∧
      ((s2.expenses.map (fun e => e.id)).Nodup ↔
        1760000000000 ∉ (sessionOf employeeUser).expenses.map (fun e => e.id)) :=
  ids_unique_of_fresh_clock 1760000000000 (sessionOf employeeUser) expense101 (by decide)

/-- C15: with a user logged in, two `PROCESS_APPROVAL` actions for different ids, reduced
one after the other, return the same expense list in either order (and the same user,
rules and other fields, the message apart). -/
theorem decisions_commute (now : Nat) (s : State) (u : User)
    (id1 : Nat) (status1 comment1 : String) (id2 : Nat) (status2 comment2 : String)
    (hu : s.user = some u) (hne : id1 ≠ id2) :
    ∃ sa sb,
      dispatchAll now s
        [.PROCESS_APPROVAL id1 status1 comment1, .PROCESS_APPROVAL id2 status2 comment2]
        = some sa ∧
      dispatchAll now s
        [.PROCESS_APPROVAL id2 status2 comment2, .PROCESS_APPROVAL id1 status1 comment1]
        = some sb ∧
      sa.expenses = sb.expenses ∧
      sa.user = sb.user ∧ sa.rules = sb.rules ∧ sa.isAuthenticated = sb.isAuthenticated ∧
      sa.currentPage = sb.currentPage ∧ sa.baseCurrency = sb.baseCurrency := by
  have h1 := appReducer_processApproval now s id1 status1 comment1 _ (label_of_user s u status1 hu)
  have h2 := appReducer_processApproval now s id2 status2 comment2 _ (label_of_user s u status2 hu)
  have h12 := appReducer_processApproval now
    { s with
      expenses := s.expenses.map (decided id1 status1
        (if status1 = "Approved" then "Completed" else "Rejected by " ++ u.name) comment1),
      message := some ⟨"success", "Expense " ++ status1 ++ "!"⟩ }
    id2 status2 comment2 _ (label_of_user _ u status2 hu)
  have h21 := appReducer_processApproval now
    { s with
      expenses := s.expenses.map (decided id2 status2
        (if status2 = "Approved" then "Completed" else "Rejected by " ++ u.name) comment2),
      message := some ⟨"success", "Expense " ++ status2 ++ "!"⟩ }
    id1 status1 comment1 _ (label_of_user _ u status1 hu)
  refine ⟨_, _, Eq.trans ?_ h12, Eq.trans ?_ h21, ?_, rfl, rfl, rfl, rfl, rfl⟩
  · simp only [dispatchAll, h1, Option.some_bind, Option.bind_some]
  · simp only [dispatchAll, h2, Option.some_bind, Option.bind_some]
  · simp only [List.map_map]
    apply List.map_congr_left
    intro e _
    exact (decided_comm id1 id2 _ _ _ _ _ _ hne e).symm

/-- Witness of `decisions_commute`: the admin rejects expense 101 and approves expense
103, in either order. -/
theorem decisions_commute_witness :
    ∃ sa sb,
      dispatchAll 0 (sessionOf adminUser)
        [.PROCESS_APPROVAL 101 "Rejected" "no receipt", .PROCESS_APPROVAL 103 "Approved" "ok"]
        = some sa ∧
      dispatchAll 0 (sessionOf adminUser)
        [.PROCESS_APPROVAL 103 "Approved" "ok", .PROCESS_APPROVAL 101 "Rejected" "no receipt"]
        = some sb ∧
      sa.expenses = sb.expenses ∧
      sa.user = sb.user ∧ sa.rules = sb.rules ∧ sa.isAuthenticated = sb.isAuthenticated ∧
      sa.currentPage = sb.currentPage ∧ sa.baseCurrency = sb.baseCurrency :=
  decisions_commute 0 (sessionOf adminUser) adminUser 101 "Rejected" "no receipt"
    103 "Approved" "ok" rfl (by decide)

/-! ## Rule editor -/

/-- The action of the save button falls to the `default` case of the reducer: the state
is returned as it is, whatever the edited rule. -/
theorem appReducer_saveRuleAction (now : Nat) (s : State) (currentRule : Rule) :
    appReducer now s (saveRuleAction s.rules currentRule) = some s := rfl

/-- C16 (the code at the failing input): the admin edits the seed rule into the hybrid
AND rule and saves; the action carries the edited rule under `rule1`, and the reducer
returns the state unchanged, with the seed rule under `rule1`. -/
theorem save_rule_not_applied :
    saveRuleAction (sessionOf adminUser).rules hybridAndRule
      = .SET_RULES [("rule1", hybridAndRule)] ∧
    ∃ s2, appReducer 0 (sessionOf adminUser)
        (saveRuleAction (sessionOf adminUser).rules hybridAndRule) = some s2 ∧
      s2 = sessionOf adminUser ∧
      s2.rules.lookup "rule1" = some defaultRule ∧
      s2.rules.lookup "rule1" ≠ some hybridAndRule :=
  ⟨by decide, _, rfl, rfl, rfl, by decide⟩

theorem length_filter_ne_of_nodup (stepId : Nat) (steps : List Step)
    (hnodup : (steps.map (fun st => st.id)).Nodup)
    (hmem : stepId ∈ steps.map (fun st => st.id)) :
    (steps.filter (fun step => some step.id != some stepId)).length + 1 = steps.length := by
  induction steps with
  | nil => simp at hmem
  | cons a t ih =>
    rw [List.map_cons, List.nodup_cons] at hnodup
    by_cases ha : a.id = stepId
    · have ht : t.filter (fun step => some step.id != some stepId) = t := by
        rw [List.filter_eq_self]
        intro x hx
        have hxa : x.id ≠ stepId := fun h =>
          hnodup.1 (List.mem_map.2 ⟨x, hx, h.trans ha.symm⟩)
        simp [hxa]
      simp [List.filter_cons, ha, ht]
    · have hmem2 : stepId ∈ t.map (fun st => st.id) := by
        rcases List.mem_cons.1 hmem with h | h
        · exact absurd h.symm ha
        · exact h
      have := ih hnodup.2 hmem2
      simp [List.filter_cons, ha]
      omega

/-- C17 (counterexample): two steps added at the same clock value have the same id; once
the three seed steps are removed the rule has these two steps, and removing one removes
both. -/
theorem remove_keeps_a_step_counterexample :
    (handleStepChange 0 (handleStepChange 0 (handleStepChange 0
      (handleStepChange 1760000000000 (handleStepChange 1760000000000 defaultRule "add" none)
        "add" none) "remove" (some 1)) "remove" (some 2)) "remove" (some 3)).steps
      = [⟨1760000000000, "New Role"⟩, ⟨1760000000000, "New Role"⟩] ∧
    2 ≤ ([⟨1760000000000, "New Role"⟩, ⟨1760000000000, "New Role"⟩] : List Step).length ∧
    (handleStepChange 0
      { defaultRule with steps := [⟨1760000000000, "New Role"⟩, ⟨1760000000000, "New Role"⟩] }
      "remove" (some 1760000000000)).steps = [] :=
  ⟨by decide, by decide, by decide⟩

/-- C17 (amended): `handleStepChange('remove', stepId)` keeps the steps whose id differs
from `stepId`, in order. On a rule with at least two steps it leaves at least one step when
some step has another id, and exactly one step fewer when the step ids are pairwise
distinct and `stepId` is one of them. `handleStepChange('add')` returns the rule with one
more step, `{ id: Date.now(), role: 'New Role' }`, last. Name and conditional are kept. -/
theorem handleStepChange_spec (now : Nat) (rule : Rule) (stepId : Nat) :
    (handleStepChange now rule "remove" (some stepId)).steps
      = rule.steps.filter (fun step => decide (step.id ≠ stepId)) ∧
    (2 ≤ rule.steps.length → (∃ st ∈ rule.steps, st.id ≠ stepId) →
      1 ≤ (handleStepChange now rule "remove" (some stepId)).steps.length) ∧
    (2 ≤ rule.steps.length → (rule.steps.map (fun st => st.id)).Nodup →
      stepId ∈ rule.steps.map (fun st => st.id) →
      (handleStepChange now rule "remove" (some stepId)).steps.length + 1 = rule.steps.length ∧
      1 ≤ (handleStepChange now rule "remove" (some stepId)).steps.length) ∧
    (handleStepChange now rule "add" none).steps = rule.steps ++ [⟨now, "New Role"⟩] ∧
    (handleStepChange now rule "add" none).steps.length = rule.steps.length + 1 ∧
    (handleStepChange now rule "add" none).name = rule.name ∧
    (handleStepChange now rule "add" none).conditional = rule.conditional ∧
    (handleStepChange now rule "remove" (some stepId)).name = rule.name ∧
    (handleStepChange now rule "remove" (some stepId)).conditional = rule.conditional := by
  have hrem : (handleStepChange now rule "remove" (some stepId)).steps
      = rule.steps.filter (fun step => some step.id != some stepId) := by
    simp [handleStepChange]
  have hadd : (handleStepChange now rule "add" none).steps
      = rule.steps ++ [⟨now, "New Role"⟩] := by
    simp [handleStepChange]
  refine ⟨?_, ?_, ?_, hadd, ?_, rfl, rfl, rfl, rfl⟩
  · rw [hrem]
    congr 1
    funext step
    by_cases h : step.id = stepId <;> simp [bne, h]
  · rintro _ ⟨st, hst, hne⟩
    rw [hrem]
    apply List.length_pos_of_mem (a := st)
    rw [List.mem_filter]
    exact ⟨hst, by simp [hne]⟩
  · intro h2 hnodup hmem
    rw [hrem]
    have := length_filter_ne_of_nodup stepId rule.steps hnodup hmem
    omega
  · rw [hadd]
    simp

/-- Witness of `handleStepChange_spec`: removing step 2 of the seed rule leaves two steps. -/
theorem handleStepChange_spec_witness :
    1 ≤ (handleStepChange 0 defaultRule "remove" (some 2)).steps.length ∧
    ((handleStepChange 0 defaultRule "remove" (some 2)).steps.length + 1
        = defaultRule.steps.length ∧
      1 ≤ (handleStepChange 0 defaultRule "remove" (some 2)).steps.length) :=
  ⟨(handleStepChange_spec 0 defaultRule 2).2.1 (by decide) ⟨⟨1, "Manager"⟩, by decide, by decide⟩,
   (handleStepChange_spec 0 defaultRule 2).2.2.1 (by decide) (by decide) (by decide)⟩

/-! ## After a decision -/

/-- C18: for every state, id and comment, and a status of `'Approved'` or `'Rejected'`:
in every state that `PROCESS_APPROVAL` returns, no expense with that id is in the
`pendingExpenses` of any user; and a state is returned whenever a user is logged in or
the status is `'Approved'`. -/
theorem decided_not_pending (now : Nat) (s : State) (id : Nat) (status comment : String)
    (hstatus : status = "Approved" ∨ status = "Rejected") :
    (∀ s2, appReducer now s (.PROCESS_APPROVAL id status comment) = some s2 →
      ∀ (v : User), ∀ e ∈ pendingExpenses v s2.expenses, e.id ≠ id) ∧
    ((s.user ≠ none ∨ status = "Approved") →
      ∃ s2, appReducer now s (.PROCESS_APPROVAL id status comment) = some s2) := by
  constructor
  · intro s2 h v e he hid
    obtain ⟨label, rfl⟩ := appReducer_processApproval_inv now s s2 id status comment h
    unfold pendingExpenses at he
    rw [List.mem_filter] at he
    obtain ⟨hmem, hp⟩ := he
    obtain ⟨e0, _, rfl⟩ := List.mem_map.1 hmem
    rw [decided_id] at hid
    have hst : (decided id status label comment e0).status = status := by
      simp [decided, hid]
    rw [Bool.and_eq_true, beq_iff_eq, hst] at hp
    rcases hstatus with h | h <;> rw [h] at hp <;> exact absurd hp.1 (by decide)
  · intro h
    rcases h with h | h
    · exact appReducer_processApproval_returns now s id status comment (Or.inl h)
    · exact appReducer_processApproval_returns now s id status comment (Or.inr (Or.inl h))

/-- Witness of `decided_not_pending`: after the admin rejects expense 101, no inbox has an
expense of id 101. -/
theorem decided_not_pending_witness :
    (∀ s2, appReducer 0 (sessionOf adminUser) (.PROCESS_APPROVAL 101 "Rejected" "no receipt")
        = some s2 →
      ∀ (v : User), ∀ e ∈ pendingExpenses v s2.expenses, e.id ≠ 101) ∧
    ∃ s2, appReducer 0 (sessionOf adminUser) (.PROCESS_APPROVAL 101 "Rejected" "no receipt")
      = some s2 :=
  ⟨(decided_not_pending 0 (sessionOf adminUser) 101 "Rejected" "no receipt" (Or.inr rfl)).1,
   (decided_not_pending 0 (sessionOf adminUser) 101 "Rejected" "no receipt" (Or.inr rfl)).2
     (Or.inl (by decide))⟩

/-- C19: in every state that `PROCESS_APPROVAL` returns, the expense list has the same
length; position by position, an expense whose id differs from the payload id is the
same in every field, and an expense with the payload id differs at most in status, step
label and comment; when no expense has that id the list is unchanged; user,
`isAuthenticated`, page, rules and base currency are unchanged. A state is returned
whenever a user is logged in, or the status is `'Approved'`, or no expense has the id. -/
theorem processApproval_frame (now : Nat) (s : State) (id : Nat) (status comment : String) :
    (∀ s2, appReducer now s (.PROCESS_APPROVAL id status comment) = some s2 →
      s2.expenses.length = s.expenses.length ∧
      (∀ (i : Nat) (e : Expense), s.expenses[i]? = some e → e.id ≠ id →
        s2.expenses[i]? = some e) ∧
      (∀ (i : Nat) (e : Expense), s.expenses[i]? = some e → e.id = id →
        ∃ e2, s2.expenses[i]? = some e2 ∧
          e2 = { e with
            status := e2.status,
            currentStep := e2.currentStep,
            approvalComment := e2.approvalComment }) ∧
      ((∀ e ∈ s.expenses, e.id ≠ id) → s2.expenses = s.expenses) ∧
      s2.user = s.user ∧ s2.isAuthenticated = s.isAuthenticated ∧
      s2.currentPage = s.currentPage ∧ s2.rules = s.rules ∧
      s2.baseCurrency = s.baseCurrency) ∧
    ((s.user ≠ none ∨ status = "Approved" ∨ ∀ e ∈ s.expenses, e.id ≠ id) →
      ∃ s2, appReducer now s (.PROCESS_APPROVAL id status comment) = some s2) := by
  refine ⟨?_, appReducer_processApproval_returns now s id status comment⟩
  intro s2 h
  obtain ⟨label, rfl⟩ := appReducer_processApproval_inv now s s2 id status comment h
  refine ⟨by simp, ?_, ?_, ?_, rfl, rfl, rfl, rfl, rfl⟩
  · intro i e hi hne
    show (s.expenses.map (decided id status label comment))[i]? = some e
    rw [List.getElem?_map, hi]
    simp [decided, hne]
  · intro i e hi hid
    exact ⟨_, getElem?_map_decided _ _ _ _ _ i e hi hid, rfl⟩
  · intro hno
    exact map_decided_of_no_match id status label comment s.expenses hno

/-- Witness of `processApproval_frame`: with nobody logged in, a rejection for an id that
no seed expense has returns a state with the seed list. -/
theorem processApproval_frame_witness :
    ∃ s2, appReducer 0 initialState (.PROCESS_APPROVAL 999 "Rejected" "none") = some s2 ∧
      s2.expenses = initialState.expenses :=
  Exists.elim
    ((processApproval_frame 0 initialState 999 "Rejected" "none").2
      (Or.inr (Or.inr (by decide))))
    (fun s2 h => ⟨s2, h,
      ((processApproval_frame 0 initialState 999 "Rejected" "none").1 s2 h).2.2.2.1 (by decide)⟩)

/-! ## Numbers: rounding -/

theorem roundHalfEven_of_abs_lt (q : ℚ) (m : ℤ) (h : |q - m| < 1 / 2) : roundHalfEven q = m := by
  rw [abs_lt] at h
  unfold roundHalfEven
  rcases le_or_lt (m : ℚ) q with hm | hm
  · have hf : ⌊q⌋ = m := by
      rw [Int.floor_eq_iff]
      constructor
      · exact hm
      · linarith
    rw [hf, if_pos (by linarith)]
  · have hf : ⌊q⌋ = m - 1 := by
      rw [Int.floor_eq_iff]
      push_cast
      constructor <;> linarith
    rw [hf]
    push_cast
    rw [if_neg (by linarith), if_pos (by linarith)]
    ring

theorem abs_roundHalfEven_sub_le (q : ℚ) : |(roundHalfEven q : ℚ) - q| ≤ 1 / 2 := by
  have h1 := Int.floor_le q
  have h2 := Int.lt_floor_add_one q
  unfold roundHalfEven
  rw [abs_le]
  split_ifs <;> push_cast <;> constructor <;> linarith

theorem log_two_eq (q : ℚ) (e : ℤ) (h1 : (2 : ℚ) ^ e ≤ q) (h2 : q < (2 : ℚ) ^ (e + 1)) :
    Int.log 2 q = e := by
  have hq : 0 < q := lt_of_lt_of_le (by positivity) h1
  have ha : e ≤ Int.log 2 q := (Int.zpow_le_iff_le_log (by norm_num) hq).1 (by exact_mod_cast h1)
  have hb : Int.log 2 q < e + 1 := (Int.lt_zpow_iff_log_lt (by norm_num) hq).1 (by exact_mod_cast h2)
  omega

/-- Evaluation of `toDouble` on a positive number, from its binade and the integer
nearest to the scaled number. -/
theorem toDouble_eq (q : ℚ) (e m : ℤ) (h1 : (2 : ℚ) ^ e ≤ q) (h2 : q < (2 : ℚ) ^ (e + 1))
    (hm : |q / 2 ^ (e - 52) - m| < 1 / 2) : toDouble q = m * 2 ^ (e - 52) := by
  have hq : 0 < q := lt_of_lt_of_le (by positivity) h1
  unfold toDouble
  rw [if_neg hq.ne', abs_of_pos hq, log_two_eq q e h1 h2, roundHalfEven_of_abs_lt _ m hm]

/-- The relative error of `toDouble` is at most `2 ^ (-53)`. -/
theorem abs_toDouble_sub_le (q : ℚ) : |toDouble q - q| ≤ |q| / 2 ^ 53 := by
  unfold toDouble
  split_ifs with h0
  · simp [h0]
  · have hq : 0 < |q| := abs_pos.2 h0
    have hlog := Int.zpow_log_le_self (b := 2) (by norm_num) hq
    have hk : (0 : ℚ) < 2 ^ (Int.log 2 |q| - 52) := by positivity
    have hr := abs_roundHalfEven_sub_le (q / 2 ^ (Int.log 2 |q| - 52))
    have hsplit : (2 : ℚ) ^ Int.log 2 |q| = 2 ^ (Int.log 2 |q| - 52) * 2 ^ (52 : ℤ) := by
      rw [← zpow_add₀ (by norm_num)]
      congr 1
      ring
    have heq : (roundHalfEven (q / 2 ^ (Int.log 2 |q| - 52)) : ℚ) * 2 ^ (Int.log 2 |q| - 52) - q
        = ((roundHalfEven (q / 2 ^ (Int.log 2 |q| - 52)) : ℚ) - q / 2 ^ (Int.log 2 |q| - 52))
          * 2 ^ (Int.log 2 |q| - 52) := by
      field_simp
    rw [heq, abs_mul, abs_of_pos hk]
    have hlog2 : (2 : ℚ) ^ (Int.log 2 |q| - 52) * 2 ^ (52 : ℤ) ≤ |q| := by
      rw [← hsplit]
      exact_mod_cast hlog
    have h52 : ((2 : ℚ) ^ (52 : ℤ)) = 4503599627370496 := by norm_num
    rw [h52] at hlog2
    have : |(roundHalfEven (q / 2 ^ (Int.log 2 |q| - 52)) : ℚ) - q / 2 ^ (Int.log 2 |q| - 52)|
        * 2 ^ (Int.log 2 |q| - 52) ≤ 1 / 2 * 2 ^ (Int.log 2 |q| - 52) :=
      mul_le_mul_of_nonneg_right hr hk.le
    rw [le_div_iff₀ (by norm_num)]
    norm_num at this ⊢
    linarith

theorem toDouble_eleven_tenths :
    toDouble (11 / 10) = 2476979795053773 / 2251799813685248 := by
  rw [toDouble_eq (11 / 10) 0 4953959590107546 (by norm_num) (by norm_num)
    (by norm_num [abs_lt])]
  norm_num

theorem toFixed2_of_nonneg (x : ℚ) (n : ℕ) (h0 : 0 ≤ x) (h1 : (n : ℚ) ≤ x * 100 + 1 / 2)
    (h2 : x * 100 + 1 / 2 < n + 1) : toFixed2 x = twoDecimals n := by
  unfold toFixed2
  have hf : ⌊|x| * 100 + 1 / 2⌋ = (n : ℤ) := by
    rw [abs_of_nonneg h0, Int.floor_eq_iff]
    exact ⟨by exact_mod_cast h1, by exact_mod_cast h2⟩
  rw [hf, if_neg (not_lt.2 h0)]
  simp

/-! ## Submit form: conversion -/

/-- What `handleSubmit` dispatches when the amount field and the category are filled. -/
theorem handleSubmit_dispatched (user : User) (baseCurrency : String) (formData : FormData)
    (today : String) (amount : ℚ) (hamount : formData.originalAmount = some amount)
    (hcat : formData.category ≠ "") :
    (handleSubmit user baseCurrency formData today).dispatched =
      [.SUBMIT_EXPENSE
          { userId := user.id,
            employeeName := user.name,
            category := formData.category,
            originalAmount := .num (toDouble amount),
            originalCurrency := formData.originalCurrency,
            companyAmount := .str (toFixed2 (jsMul (toDouble amount)
              (if formData.originalCurrency = "EUR" then toDouble (11 / 10) else 1))),
            date := formData.date,
            id := 0, status := "", currentStep := "", approvalComment := none },
        .NAVIGATE PAGES.DASHBOARD] := by
  unfold handleSubmit
  rw [hamount]
  simp only [if_neg hcat]

theorem toDouble_3500 : toDouble 3500 = 3500 := by
  rw [toDouble_eq 3500 11 7696581394432000 (by norm_num) (by norm_num) (by norm_num [abs_lt])]
  norm_num

theorem toDouble_100 : toDouble 100 = 100 := by
  rw [toDouble_eq 100 6 7036874417766400 (by norm_num) (by norm_num) (by norm_num [abs_lt])]
  norm_num

theorem toDouble_95_cents : toDouble (95 / 100) = 4278419646001971 / 4503599627370496 := by
  rw [toDouble_eq (95 / 100) (-1) 8556839292003942 (by norm_num) (by norm_num)
    (by norm_num [abs_lt])]
  norm_num

theorem jsMul_95_cents :
    jsMul (toDouble (95 / 100)) (toDouble (11 / 10)) = 588282701325271 / 562949953421312 := by
  unfold jsMul
  rw [toDouble_95_cents, toDouble_eleven_tenths,
    toDouble_eq _ 0 4706261610602168 (by norm_num) (by norm_num) (by norm_num [abs_lt])]
  norm_num

theorem jsMul_100 :
    jsMul (toDouble 100) (toDouble (11 / 10)) = 7740561859543041 / 70368744177664 := by
  unfold jsMul
  rw [toDouble_100, toDouble_eleven_tenths,
    toDouble_eq _ 6 7740561859543041 (by norm_num) (by norm_num) (by norm_num [abs_lt])]
  norm_num

/-- C13 (counterexample): 0.95 EUR. The exact product 0.95 × 1.10 is 1.045, which rounds
half-up to 1.05; the product of the two doubles is below 1.045, and `handleSubmit` sets
`companyAmount` to `'1.04'`. -/
theorem eur_half_up_counterexample :
    ∃ payload, (handleSubmit employeeUser "USD"
        ⟨"Meals", some (95 / 100), "EUR", "", "2025-10-01", none⟩ "2025-10-02").dispatched
        = [.SUBMIT_EXPENSE payload, .NAVIGATE PAGES.DASHBOARD] ∧
      payload.companyAmount = .str "1.04" ∧
      (95 / 100 : ℚ) * (11 / 10) * 100 + 1 / 2 = 105 ∧
      twoDecimals 105 = "1.05" ∧
      payload.companyAmount ≠ .str (twoDecimals 105) := by
  have hx : toFixed2 (jsMul (toDouble (95 / 100)) (toDouble (11 / 10))) = "1.04" := by
    rw [jsMul_95_cents,
      toFixed2_of_nonneg _ 104 (by norm_num) (by norm_num) (by norm_num)]
    decide
  refine ⟨_, handleSubmit_dispatched employeeUser "USD" _ "2025-10-02" (95 / 100) rfl
    (by decide), ?_, by norm_num, by decide, ?_⟩
  · show JsValue.str (toFixed2 (jsMul (toDouble (95 / 100))
      (if "EUR" = "EUR" then toDouble (11 / 10) else 1))) = .str "1.04"
    rw [if_pos rfl, hx]
  · show JsValue.str (toFixed2 (jsMul (toDouble (95 / 100))
      (if "EUR" = "EUR" then toDouble (11 / 10) else 1))) ≠ .str (twoDecimals 105)
    rw [if_pos rfl, hx]
    decide

/-- C13 (amended): for an amount in EUR, within the range in which numbers are normal
doubles and `toFixed` prints digits, `handleSubmit` sets `companyAmount` to the numeral
with two decimals of `n / 100`, where `n / 100` is the double product
`parseFloat(amount) * 1.10` rounded half-up to two decimals; `n / 100` is within half a
cent, plus `2 ^ (-51)` of the product, of amount × 1.10 (so it can be the cent below the
half-up rounding of the exact product). For amount 100 the result is `'110.00'`. -/
theorem handleSubmit_eur_rounding (user : User) (baseCurrency : String) (formData : FormData)
    (today : String) (amount : ℚ)
    (hbase : baseCurrency = "USD") (hamount : formData.originalAmount = some amount)
    (hcat : formData.category ≠ "") (hcur : formData.originalCurrency = "EUR")
    (hlo : 1 / 10 ^ 300 ≤ amount) (hhi : amount ≤ 10 ^ 20) :
    ∃ (payload : Expense) (n : ℕ),
      (handleSubmit user baseCurrency formData today).dispatched
        = [.SUBMIT_EXPENSE payload, .NAVIGATE PAGES.DASHBOARD] ∧
      payload.companyAmount = .str (twoDecimals n) ∧
      (n : ℤ) = ⌊jsMul (toDouble amount) (toDouble (11 / 10)) * 100 + 1 / 2⌋ ∧
      |(n : ℚ) / 100 - amount * (11 / 10)| ≤ 1 / 200 + amount * (11 / 10) / 2 ^ 51 ∧
      (amount = 100 → payload.companyAmount = .str "110.00") := by
  have hpos : 0 < amount := lt_of_lt_of_le (by positivity) hlo
  have hA := abs_toDouble_sub_le amount
  rw [abs_of_pos hpos, abs_le] at hA
  have hApos : 0 < toDouble amount := by
    have : amount / 2 ^ 53 < amount := div_lt_self hpos (by norm_num)
    linarith [hA.1]
  have hP : 0 < toDouble amount * (2476979795053773 / 2251799813685248) := by positivity
  have hx := abs_toDouble_sub_le (toDouble amount * (2476979795053773 / 2251799813685248))
  rw [abs_of_pos hP, abs_le] at hx
  have hx0 : 0 ≤ jsMul (toDouble amount) (toDouble (11 / 10)) := by
    unfold jsMul
    rw [toDouble_eleven_tenths]
    have : toDouble amount * (2476979795053773 / 2251799813685248) / 2 ^ 53
        < toDouble amount * (2476979795053773 / 2251799813685248) :=
      div_lt_self hP (by norm_num)
    linarith [hx.1]
  have hfl0 : 0 ≤ ⌊jsMul (toDouble amount) (toDouble (11 / 10)) * 100 + 1 / 2⌋ := by
    apply Int.floor_nonneg.2
    linarith
  have hn : ((⌊jsMul (toDouble amount) (toDouble (11 / 10)) * 100 + 1 / 2⌋.toNat : ℕ) : ℤ)
      = ⌊jsMul (toDouble amount) (toDouble (11 / 10)) * 100 + 1 / 2⌋ := Int.toNat_of_nonneg hfl0
  have hnq : ((⌊jsMul (toDouble amount) (toDouble (11 / 10)) * 100 + 1 / 2⌋.toNat : ℕ) : ℚ)
      = (⌊jsMul (toDouble amount) (toDouble (11 / 10)) * 100 + 1 / 2⌋ : ℚ) := by
    exact_mod_cast congrArg (fun z : ℤ => (z : ℚ)) hn
  have hf1 := Int.floor_le (jsMul (toDouble amount) (toDouble (11 / 10)) * 100 + 1 / 2)
  have hf2 := Int.lt_floor_add_one (jsMul (toDouble amount) (toDouble (11 / 10)) * 100 + 1 / 2)
  have hfix : toFixed2 (jsMul (toDouble amount) (toDouble (11 / 10)))
      = twoDecimals ⌊jsMul (toDouble amount) (toDouble (11 / 10)) * 100 + 1 / 2⌋.toNat :=
    toFixed2_of_nonneg _ _ hx0 (by rw [hnq]; exact hf1) (by rw [hnq]; exact hf2)
  refine ⟨_, ⌊jsMul (toDouble amount) (toDouble (11 / 10)) * 100 + 1 / 2⌋.toNat,
    handleSubmit_dispatched user baseCurrency formData today amount hamount hcat, ?_, hn, ?_, ?_⟩
  · show JsValue.str (toFixed2 (jsMul (toDouble amount)
      (if formData.originalCurrency = "EUR" then toDouble (11 / 10) else 1))) = _
    rw [if_pos hcur, hfix]
  · rw [hnq, abs_le]
    have hj : jsMul (toDouble amount) (toDouble (11 / 10))
        = toDouble (toDouble amount * (2476979795053773 / 2251799813685248)) := by
      unfold jsMul
      rw [toDouble_eleven_tenths]
    rw [hj] at hf1 hf2
    rw [hj]
    constructor <;> linarith [hA.1, hA.2, hx.1, hx.2]
  · intro h100
    subst h100
    show JsValue.str (toFixed2 (jsMul (toDouble 100)
      (if formData.originalCurrency = "EUR" then toDouble (11 / 10) else 1))) = _
    rw [if_pos hcur, jsMul_100,
      toFixed2_of_nonneg _ 11000 (by norm_num) (by norm_num) (by norm_num)]
    decide

/-- Witness of `handleSubmit_eur_rounding`: 100 EUR gives `'110.00'`. -/
theorem handleSubmit_eur_rounding_witness :
    ∃ (payload : Expense) (n : ℕ),
      (handleSubmit employeeUser "USD"
        ⟨"Travel", some 100, "EUR", "", "2025-10-01", none⟩ "2025-10-02").dispatched
        = [.SUBMIT_EXPENSE payload, .NAVIGATE PAGES.DASHBOARD] ∧
      payload.companyAmount = .str (twoDecimals n) ∧
      (n : ℤ) = ⌊jsMul (toDouble 100) (toDouble (11 / 10)) * 100 + 1 / 2⌋ ∧
      |(n : ℚ) / 100 - 100 * (11 / 10)| ≤ 1 / 200 + 100 * (11 / 10) / 2 ^ 51 ∧
      ((100 : ℚ) = 100 → payload.companyAmount = .str "110.00") :=
  handleSubmit_eur_rounding employeeUser "USD"
    ⟨"Travel", some 100, "EUR", "", "2025-10-01", none⟩ "2025-10-02" 100
    rfl rfl (by decide) rfl (by norm_num) (by norm_num)

/-- C14 (the code at the failing input): 3500 INR with base currency USD. The rate is 1
for every currency but EUR, and `handleSubmit` sets `companyAmount` to `'3500.00'`, where
the seed expense 103 has 42 for 3500 INR. -/
theorem inr_not_converted :
    ∃ payload, (handleSubmit employeeUser "USD"
        ⟨"Meals", some 3500, "INR", "", "2025-09-29", none⟩ "2025-10-02").dispatched
        = [.SUBMIT_EXPENSE payload, .NAVIGATE PAGES.DASHBOARD] ∧
      payload.originalCurrency = "INR" ∧
      payload.originalAmount = .num 3500 ∧
      payload.companyAmount = .str "3500.00" ∧
      payload.companyAmount ≠ .str "42.00" ∧
      expense103.originalAmount = .num 3500 ∧ expense103.originalCurrency = "INR" ∧
      expense103.companyAmount = .num 42 := by
  have hx : toFixed2 (jsMul (toDouble 3500) 1) = "3500.00" := by
    unfold jsMul
    rw [toDouble_3500, mul_one, toDouble_3500,
      toFixed2_of_nonneg _ 350000 (by norm_num) (by norm_num) (by norm_num)]
    decide
  refine ⟨_, handleSubmit_dispatched employeeUser "USD" _ "2025-10-02" 3500 rfl (by decide),
    rfl, ?_, ?_, ?_, rfl, rfl, rfl⟩
  · show JsValue.num (toDouble 3500) = .num 3500
    rw [toDouble_3500]
  · show JsValue.str (toFixed2 (jsMul (toDouble 3500)
      (if "INR" = "EUR" then toDouble (11 / 10) else 1))) = .str "3500.00"
    rw [if_neg (by decide), hx]
  · show JsValue.str (toFixed2 (jsMul (toDouble 3500)
      (if "INR" = "EUR" then toDouble (11 / 10) else 1))) ≠ .str "42.00"
    rw [if_neg (by decide), hx]
    decide

end ExpenseApp
